import Mathlib

/-!
Verification of the wilfred image-manifest subsystem.

The embedding translates `src/wilfred/api/images.py` (class `Images`:
`read_images`, `_verify`, `get_image`, `pretty`, `download`,
`_check_if_read`) and the legacy variant `src/wilfred/images.py`
(`Images.__init__`, `_read_images`, `_verify`, `pretty`).  Parsed JSON
documents are modelled by the inductive `Json`; a Python subscription
`d[key]` that would raise (`KeyError`/`TypeError`) is an `Option.none`;
exceptions of the Python code are constructors of explicit error types.
-/

/-- A parsed JSON document (`json.loads` result).  Numbers are modelled as
integers: every `api_version` in the schema is an integer. -/
inductive Json where
  | null
  | bool (b : Bool)
  | num (n : Int)
  | str (s : String)
  | arr (elems : List Json)
  | obj (fields : List (String × Json))

namespace Json

/-- Key lookup in the field list of an object (first binding wins;
`json.loads` never produces duplicate keys). -/
def lookupKey : List (String × Json) → String → Option Json
  | [], _ => none
  | (k, v) :: rest, key => if k = key then some v else lookupKey rest key

/-- Python subscription `d[key]` with a string key: succeeds only on a dict
that has the key; on anything else the `KeyError`/`TypeError` is `none`. -/
def getKey : Json → String → Option Json
  | obj fields, key => lookupKey fields key
  | _, _ => none

/-- Python subscription `d[i]` with an integer index: list indexing, or
single-character string indexing; a dict produced by `json.loads` has only
string keys, so indexing it by an integer raises (`none`). -/
def getIdx : Json → Nat → Option Json
  | arr xs, i => xs.get? i
  | str s, i => (s.toList.get? i).map (fun c => str (String.mk [c]))
  | _, _ => none

/-- Python `len()`: defined for strings, lists and dicts only. -/
def pyLen : Json → Option Nat
  | str s => some s.length
  | arr xs => some xs.length
  | obj fields => some fields.length
  | _ => none

/-- Python `str()` as used in the f-string error messages.  Container
values are abbreviated: in every claim the formatted value (a `filename`)
is a string. -/
def pyStr : Json → String
  | str s => s
  | num n => toString n
  | bool true => "True"
  | bool false => "False"
  | null => "None"
  | arr _ => "<list>"
  | obj _ => "<dict>"

end Json

/-- Python `str.endswith`, over the character lists. -/
def pyEndsWith (s suffixStr : String) : Bool := suffixStr.toList.isSuffixOf s.toList

/-- Python `str.lower`, character by character (every uid this repository
ships is ASCII). -/
def pyLower (s : String) : String := String.mk (s.toList.map Char.toLower)

/-- Constant `API_VERSION` of `src/wilfred/api/images.py` (line 24). -/
def API_VERSION : Int := 2

/-- The exceptions of `src/wilfred/api/images.py`.  `ParseError` carries the
file and the key text of its message `image <file> is missing key <key>`;
`pyException` stands for a Python exception the code does not catch
(e.g. `AttributeError` from `.lower()` on a non-string uid). -/
inductive LoadErr where
  | notPresent
  | readErr (file msg : String)
  | apiMismatch (file : String) (declared : Json)
  | parseErr (file key : String)
  | lowercaseErr (file : String)
  | pyException (msg : String)

/-- The required top-level keys of `Images._verify`
(`src/wilfred/api/images.py` lines 168-181). -/
def topLevelKeys : List String :=
  ["meta", "uid", "name", "author", "docker_image", "command", "user",
   "stop_command", "default_image", "variables", "installation", "config"]

/-- Keys of the `installation` loop (line 196). -/
def installationKeys : List String := ["docker_image", "shell", "script"]

/-- Keys of each `config.files` entry (line 209). -/
def configFileKeys : List String := ["filename", "parser", "environment", "action"]

/-- Keys of each `environment` entry (lines 217-221). -/
def environmentKeys : List String := ["config_variable", "environment_variable", "value_format"]

/-- Keys of each `variables` entry (line 233). -/
def variableKeys : List String := ["prompt", "variable", "install_only", "default", "hidden"]

/-- One `for key in keys: try: base[key] except: _exception(key)` loop, where
`base` is an expression (`image`, `image["meta"]`, ...) that is re-evaluated
inside the `try`: when `base` itself or the subscription raises, the caught
exception becomes `ParseError` naming the current key. -/
def checkPathKeys (base : Option Json) (file : String) : List String → Except LoadErr Unit
  | [] => .ok ()
  | key :: rest =>
    match base.bind (fun j => j.getKey key) with
    | none => .error (.parseErr file key)
    | some _ => checkPathKeys base file rest

/-- Loop `for key in keys: try: container[i][key] except: _exception(msg key)`:
the indexed-entry key loops of `_verify` (config file entries, environment
entries, variable entries).  `msg` builds the key text of the raised
`ParseError` (identity, except for environment entries). -/
def itemKeyCheck (container : Json) (i : Nat) (file : String) (msg : String → String) :
    List String → Except LoadErr Unit
  | [] => .ok ()
  | key :: rest =>
    match (container.getIdx i).bind (fun e => e.getKey key) with
    | none => .error (.parseErr file (msg key))
    | some _ => itemKeyCheck container i file msg rest

/-- Loop `for i in range(i0, i0 + k): body(i)`, stopping at the first raised
exception, as Python's `for i in range(n)` does when the body raises. -/
def loopRange (k i0 : Nat) (body : Nat → Except LoadErr Unit) : Except LoadErr Unit :=
  match k with
  | 0 => .ok ()
  | k' + 1 =>
    match body i0 with
    | .error e => .error e
    | .ok _ => loopRange k' (i0 + 1) body

/-- Lines 209-227 of `_verify`, one iteration of the `config.files` loop:
the four entry keys, then every `environment` entry's keys.  The
`len(...)` call on the `environment` value is outside any `try`, so a
non-sized value is an uncaught `TypeError`. -/
def checkConfigEntry (files : Json) (i : Nat) (file : String) : Except LoadErr Unit :=
  match itemKeyCheck files i file (fun key => key) configFileKeys with
  | .error e => .error e
  | .ok _ =>
    match (files.getIdx i).bind (fun e => e.getKey "environment") with
    | none => .error (.pyException "KeyError: environment")
    | some env =>
      match env.pyLen with
      | none => .error (.pyException "TypeError: len() of environment")
      | some n =>
        let fname := Json.pyStr (((files.getIdx i).bind (fun e => e.getKey "filename")).getD .null)
        loopRange n 0 (fun x =>
          itemKeyCheck env x file (fun key => fname ++ " environment key " ++ key) environmentKeys)

/-- Lines 202-227 of `_verify`: presence of `config.files`, then the entry loop.
When `image["config"]["files"]` raises, the Python code calls
`_exception(key)` where `key` is the variable leaked from the preceding
installation loop, whose value is always `"script"`. -/
def checkConfigSection (image : Json) (file : String) : Except LoadErr Unit :=
  match (image.getKey "config").bind (fun c => c.getKey "files") with
  | none => .error (.parseErr file "script")
  | some files =>
    match files.pyLen with
    | none => .error (.pyException "TypeError: len() of config files")
    | some n =>
      if n > 0 then loopRange n 0 (fun i => checkConfigEntry files i file) else .ok ()

/-- Lines 231-237 of `_verify`: the `variables` entry loop. -/
def checkVariablesSection (image : Json) (file : String) : Except LoadErr Unit :=
  match image.getKey "variables" with
  | none => .error (.pyException "KeyError: variables")
  | some vars =>
    match vars.pyLen with
    | none => .error (.pyException "TypeError: len() of variables")
    | some n =>
      if n > 0 then loopRange n 0 (fun i => itemKeyCheck vars i file (fun key => key) variableKeys)
      else .ok ()

/-- Lines 187-188 of `_verify`: `image["uid"] != image["uid"].lower()`.  The
key is present when this line runs; `.lower()` on a non-string raises an
uncaught `AttributeError`. -/
def checkUidLowercase (image : Json) (file : String) : Except LoadErr Unit :=
  match image.getKey "uid" with
  | some (.str s) => if s ≠ pyLower s then .error (.lowercaseErr file) else .ok ()
  | some _ => .error (.pyException "AttributeError: lower on non-string uid")
  | none => .error (.pyException "KeyError: uid")

/-- Function `Images._verify` of `src/wilfred/api/images.py` lines 164-239. -/
def verifyImage (image : Json) (file : String) : Except LoadErr Unit :=
  match checkPathKeys (some image) file topLevelKeys with
  | .error e => .error e
  | .ok _ =>
    match checkUidLowercase image file with
    | .error e => .error e
    | .ok _ =>
      match checkPathKeys (image.getKey "meta") file ["api_version"] with
      | .error e => .error e
      | .ok _ =>
        match checkPathKeys (image.getKey "installation") file installationKeys with
        | .error e => .error e
        | .ok _ =>
          match checkConfigSection image file with
          | .error e => .error e
          | .ok _ => checkVariablesSection image file

/-- A file discovered by the `os.walk` of a load: its basename and the result
of `json.loads` on its contents (`Except.error msg` models a parse exception
with message `msg`). -/
structure SrcFile where
  name : String
  content : Except String Json

/-- Evaluation of `_image["meta"]["api_version"]`: `none` when the access
raises. -/
def versionOf (image : Json) : Option Json :=
  (image.getKey "meta").bind (fun m => m.getKey "api_version")

/-- Lines 130-154 of `read_images` for one discovered file: skip non-`.json`
names; a parse failure raises `ReadError`; then the version gate (an
unreadable version is re-raised as `ReadError`, a version other than
`API_VERSION` as `ImageAPIMismatch`; Python compares the raw value with
`!=`, so a non-integer value is a mismatch); then `_verify`.  Returns the
manifest to append, or `none` for a skipped file. -/
def processFile (f : SrcFile) : Except LoadErr (Option Json) :=
  if pyEndsWith f.name ".json" then
    match f.content with
    | .error msg => .error (.readErr f.name msg)
    | .ok image =>
      match versionOf image with
      | none => .error (.readErr f.name "api_version unreadable")
      | some v =>
        match v with
        | .num n =>
          if n ≠ API_VERSION then .error (.apiMismatch f.name (.num n))
          else
            match verifyImage image f.name with
            | .error e => .error e
            | .ok _ => .ok (some image)
        | other => .error (.apiMismatch f.name other)
  else .ok none

/-- The walk loop of `read_images` (lines 129-154): each file is processed in
order and every accepted manifest is appended to `self.images` at once, so
on an exception the registry keeps the manifests accepted so far. -/
def processFiles : List SrcFile → List Json → Except LoadErr Unit × List Json
  | [], acc => (.ok (), acc)
  | f :: rest, acc =>
    match processFile f with
    | .error e => (.error e, acc)
    | .ok none => processFiles rest acc
    | .ok (some image) => processFiles rest (acc ++ [image])

/-- Function `Images.read_images` of `src/wilfred/api/images.py` lines
123-156.  `present` is `check_if_present()` (the `default` subtree exists);
when it is false the registry keeps its previous value `images`; otherwise
`self.images = []` and the walk rebuilds it.  The pair is (outcome, the
value of `self.images` afterwards). -/
def read_images (present : Bool) (files : List SrcFile) (images : List Json) :
    Except LoadErr Unit × List Json :=
  if present then processFiles files [] else (.error .notPresent, images)

/-- The exceptions a query can raise: `ImagesNotRead`, or an uncaught Python
exception from `img["uid"]` on a manifest without that key. -/
inductive QueryErr where
  | notRead
  | pyException (msg : String)

/-- Evaluation of `next(filter(lambda img: img["uid"] == uid, self.images),
None)`: the filter is lazy, manifests after the first match are never
touched; `img["uid"] == uid` compares a JSON value with a Python string, so
it is true only for that exact string. -/
def findImage (uid : String) : List Json → Except QueryErr (Option Json)
  | [] => .ok none
  | image :: rest =>
    match image.getKey "uid" with
    | none => .error (.pyException "KeyError: uid")
    | some (.str s) => if s = uid then .ok (some image) else findImage uid rest
    | some _ => findImage uid rest

/-- Function `Images.get_image` of `src/wilfred/api/images.py` lines 117-121:
`_check_if_read` raises `ImagesNotRead` when `len(self.images) == 0`. -/
def get_image (images : List Json) (uid : String) : Except QueryErr (Option Json) :=
  if images.length = 0 then .error .notRead else findImage uid images

/-- The keys `pretty` of `src/wilfred/api/images.py` deletes from each row
(lines 93-102). -/
def apiPrettyDropKeys : List String :=
  ["meta", "installation", "docker_image", "command", "stop_command",
   "variables", "user", "config"]

/-- The keys the legacy `pretty` of `src/wilfred/images.py` deletes
(lines 73-81: no `config`). -/
def legacyPrettyDropKeys : List String :=
  ["meta", "installation", "docker_image", "command", "stop_command",
   "variables", "user"]

/-- Effect of `for key in keys: try: del d[key] except: pass` on one row:
a dict loses those keys, anything else is unchanged (the `TypeError` is
swallowed). -/
def delKeys (keys : List String) : Json → Json
  | .obj fields => .obj (fields.filter (fun kv => decide (kv.1 ∉ keys)))
  | j => j

/-- Function `Images.pretty` of `src/wilfred/api/images.py` lines 86-115:
after the `_check_if_read` guard it deep-copies `self.images`, strips the
non-display keys from the copy and tabulates it.  The pair is (the rows
handed to `tabulate`, the value of `self.images` afterwards) — the deepcopy
leaves the registry unchanged. -/
def api_pretty (images : List Json) : Except QueryErr (List Json) × List Json :=
  if images.length = 0 then (.error .notRead, images)
  else (.ok (images.map (delKeys apiPrettyDropKeys)), images)

/-- Function `Images.pretty` of `src/wilfred/images.py` lines 69-94:
`_images = self.images` merely aliases the registry, so the key deletions
mutate the stored manifests in place.  The pair is (the rows handed to
`tabulate`, the value of `self.images` afterwards). -/
def legacy_pretty (images : List Json) : List Json × List Json :=
  (images.map (delKeys legacyPrettyDropKeys), images.map (delKeys legacyPrettyDropKeys))

/-- Constant `API_VERSION` of `src/wilfred/images.py` (line 21). -/
def LEGACY_API_VERSION : Int := 0

/-- Required top-level keys of the legacy `_verify`
(`src/wilfred/images.py` lines 107-119: no `config`). -/
def legacyTopLevelKeys : List String :=
  ["meta", "uid", "name", "author", "docker_image", "command", "user",
   "stop_command", "default_image", "variables", "installation"]

/-- First missing key of a `for key in keys: try: base[key] except:
_exception(key)` loop of the legacy `_verify`, whose `_exception` is
`message_handler.error(..., exit_code=1)`, a fatal process exit. -/
def firstMissingKey (base : Option Json) : List String → Option String
  | [] => none
  | key :: rest =>
    match base.bind (fun j => j.getKey key) with
    | none => some key
    | some _ => firstMissingKey base rest

/-- Legacy `Images._verify` (`src/wilfred/images.py` lines 103-135): the key
whose absence makes it exit fatally, if any.  It has no uid-lowercase check
and no `config` or `variables` entry checks. -/
def legacyVerify (image : Json) : Option String :=
  match firstMissingKey (some image) legacyTopLevelKeys with
  | some key => some key
  | none =>
    match firstMissingKey (image.getKey "meta") ["api_version"] with
    | some key => some key
    | none => firstMissingKey (image.getKey "installation") installationKeys

/-- Outcome of one legacy `_read_images` pass (`src/wilfred/images.py` lines
137-179): a fatal `message_handler.error(..., exit_code=1)`, the `return
False` of the version branches (missing or mismatching `api_version`; the
non-silent message call there passes no exit code, so execution reaches the
`return False` either way), or `return True` with the rebuilt registry. -/
inductive LegacyRead where
  | fatal (msg : String)
  | refreshSignal
  | ok (images : List Json)

/-- Legacy `Images._read_images`, modelled over the discovered file list. -/
def legacyRead : List SrcFile → List Json → LegacyRead
  | [], acc => .ok acc
  | f :: rest, acc =>
    if pyEndsWith f.name ".json" then
      match f.content with
      | .error msg => .fatal ("unable to parse " ++ f.name ++ " with error " ++ msg)
      | .ok image =>
        match versionOf image with
        | none => .refreshSignal
        | some (.num n) =>
          if n ≠ LEGACY_API_VERSION then .refreshSignal
          else
            match legacyVerify image with
            | some key => .fatal ("image " ++ f.name ++ " is missing key " ++ key)
            | none => legacyRead rest (acc ++ [image])
        | some _ => .refreshSignal
    else legacyRead rest acc

/-- Outcome of the load block of the legacy `Images.__init__`. -/
inductive InitOutcome where
  | ok (images : List Json)
  | fatalLoad (msg : String)
  | fatalMismatchAfterRefresh

/-- Lines 38-44 of the legacy `Images.__init__` (`src/wilfred/images.py`):
one read pass over the current manifest directory (`fs0`); when it returns
`False`, one `download_default()` and a second, silent pass over the
refreshed directory (`fs1`); when that still returns `False`, the fatal
`error("Image still has incorrect API version after refresh", exit_code=1)`.
The pair is (outcome, how many `download_default` calls the block made). -/
def legacyInit (fs0 fs1 : List SrcFile) : InitOutcome × Nat :=
  match legacyRead fs0 [] with
  | .ok imgs => (.ok imgs, 0)
  | .fatal msg => (.fatalLoad msg, 0)
  | .refreshSignal =>
    match legacyRead fs1 [] with
    | .ok imgs => (.ok imgs, 1)
    | .fatal msg => (.fatalLoad msg, 1)
    | .refreshSignal => (.fatalMismatchAfterRefresh, 1)

/-- The filesystem locations `Images.download` touches: whether
`<image_dir>/default`, `<config_dir>/img.zip` and `<config_dir>/temp_images`
exist. -/
structure FsState where
  hasDefault : Bool
  hasZip : Bool
  hasTemp : Bool

/-- Which fallible step of `Images.download` raises: the `requests.get`
(network), the `ZipFile(...).extractall` (archive corruption), or the
`move` (filesystem permissions). -/
structure DownloadFaults where
  netFails : Bool
  zipFails : Bool
  moveFails : Bool

/-- The raw exception kinds `Images.download` can let escape.  The code
defines no `FetchError`-like wrapper: whatever `requests`, `zipfile` or
`shutil` raise propagates as is. -/
inductive DownloadErr where
  | connectionError
  | badZipFile
  | moveError

/-- Function `Images.download` of `src/wilfred/api/images.py` lines 66-84,
over the abstract filesystem: `rmtree(default, ignore_errors=True)`; then
`open(img.zip, "wb")` (which creates the file) and the network read; then
extraction into `temp_images`; then the `move` into `default`; then — only
after all of that — `remove(img.zip)` and `rmtree(temp_images)`.  There is
no `try/finally`: a raised step leaves every file created so far behind. -/
def download (faults : DownloadFaults) (fs : FsState) : Except DownloadErr Unit × FsState :=
  let fs1 : FsState := { fs with hasDefault := false }
  let fs2 : FsState := { fs1 with hasZip := true }
  if faults.netFails then (.error .connectionError, fs2)
  else if faults.zipFails then (.error .badZipFile, fs2)
  else
    let fs3 : FsState := { fs2 with hasTemp := true }
    if faults.moveFails then (.error .moveError, fs3)
    else
      let fs4 : FsState := { fs3 with hasDefault := true }
      let fs5 : FsState := { fs4 with hasZip := false }
      let fs6 : FsState := { fs5 with hasTemp := false }
      (.ok (), fs6)

/-- A manifest document that satisfies the whole structural contract,
with the given uid. -/
def goodImage (uid : String) : Json :=
  .obj [("meta", .obj [("api_version", .num 2)]),
        ("uid", .str uid),
        ("name", .str "Vanilla"),
        ("author", .str "someone"),
        ("docker_image", .str "debian"),
        ("command", .str "run"),
        ("user", .str "container"),
        ("stop_command", .str "stop"),
        ("default_image", .bool true),
        ("variables", .arr []),
        ("installation", .obj [("docker_image", .str "debian"),
                               ("shell", .str "bash"),
                               ("script", .arr [])]),
        ("config", .obj [("files", .arr [])])]

/-- A manifest with the supported version but no `author` key. -/
def noAuthorImage : Json :=
  .obj [("meta", .obj [("api_version", .num 2)]),
        ("uid", .str "abc"),
        ("name", .str "Vanilla"),
        ("docker_image", .str "debian"),
        ("command", .str "run"),
        ("user", .str "container"),
        ("stop_command", .str "stop"),
        ("default_image", .bool true),
        ("variables", .arr []),
        ("installation", .obj [("docker_image", .str "debian"),
                               ("shell", .str "bash"),
                               ("script", .arr [])]),
        ("config", .obj [("files", .arr [])])]

/-- A manifest that both misses the required `author` key and declares
`meta.api_version` 1 instead of the supported 2. -/
def mixedBadImage : Json :=
  .obj [("meta", .obj [("api_version", .num 1)]),
        ("uid", .str "abc"),
        ("name", .str "Vanilla"),
        ("docker_image", .str "debian"),
        ("command", .str "run"),
        ("user", .str "container"),
        ("stop_command", .str "stop"),
        ("default_image", .bool true),
        ("variables", .arr []),
        ("installation", .obj [("docker_image", .str "debian"),
                               ("shell", .str "bash"),
                               ("script", .arr [])]),
        ("config", .obj [("files", .arr [])])]

/-- A manifest whose `config` object has no `files` key; everything else is
well-formed. -/
def emptyConfigImage : Json :=
  .obj [("meta", .obj [("api_version", .num 2)]),
        ("uid", .str "abc"),
        ("name", .str "Vanilla"),
        ("author", .str "someone"),
        ("docker_image", .str "debian"),
        ("command", .str "run"),
        ("user", .str "container"),
        ("stop_command", .str "stop"),
        ("default_image", .bool true),
        ("variables", .arr []),
        ("installation", .obj [("docker_image", .str "debian"),
                               ("shell", .str "bash"),
                               ("script", .arr [])]),
        ("config", .obj [])]

/-- The invariant claim C1 asserts of every registered manifest: all
required top-level keys present, the supported `meta.api_version`, and a
uid equal to its own lowercase form. -/
def manifestInvariant (image : Json) : Prop :=
  (∀ k ∈ topLevelKeys, (image.getKey k).isSome) ∧
  versionOf image = some (.num API_VERSION) ∧
  ∃ s, image.getKey "uid" = some (.str s) ∧ pyLower s = s

/-- Claim C4 as stated: a failing load registers no manifest from its
batch (with the `default` subtree present, the registry is reset first, so
the claim amounts to the final registry being empty). -/
def claimC4asStated : Prop :=
  ∀ (files : List SrcFile) (e : LoadErr) (registry : List Json),
    read_images true files [] = (.error e, registry) → registry = []

/-- Claim C6 as stated: a record that both lacks a required top-level key
and declares a mismatched `meta.api_version` fails its load with a
validation error (a missing-key or lowercase `ParseError`), not a
version-mismatch outcome. -/
def claimC6asStated : Prop :=
  ∀ (name : String) (image : Json) (e : LoadErr) (registry : List Json),
    pyEndsWith name ".json" = true →
    (∃ k ∈ topLevelKeys, image.getKey k = none) →
    (∀ v, versionOf image = some v → v ≠ .num API_VERSION) →
    read_images true [⟨name, .ok image⟩] [] = (.error e, registry) →
    (∃ file key, e = .parseErr file key) ∨ (∃ file, e = .lowercaseErr file)

/-- Claim C7 as stated: after a successful load no two distinct registered
manifests carry the same uid value. -/
def claimC7asStated : Prop :=
  ∀ (files : List SrcFile) (registry : List Json),
    read_images true files [] = (.ok (), registry) →
    registry.Pairwise (fun a b => a.getKey "uid" ≠ b.getKey "uid")

/-- A sequence of load attempts (each: is the `default` subtree present,
and the discovered files), threaded through the registry state the way
`read_images` leaves it. -/
def runLoads : List (Bool × List SrcFile) → List Json → List Json
  | [], images => images
  | (present, files) :: rest, images =>
    runLoads rest (read_images present files images).2

/-- One load attempt returned normally (its outcome does not depend on the
registry it started from). -/
def loadSucceeded (ld : Bool × List SrcFile) : Prop :=
  ∃ r, (read_images ld.1 ld.2 []).1 = .ok r

/-- Claim C8 as stated: a query raises `ImagesNotRead` exactly when no
successful load has completed since construction. -/
def claimC8asStated : Prop :=
  ∀ (history : List (Bool × List SrcFile)) (x : String),
    (get_image (runLoads history []) x = .error .notRead ↔
      ¬ ∃ ld ∈ history, loadSucceeded ld)

/-- Claim C9 as stated: neither variant's query operations mutate the
registry. -/
def claimC9asStated : Prop :=
  ∀ images : List Json,
    (api_pretty images).2 = images ∧ (legacy_pretty images).2 = images

/-- Claim C10 as stated: the temporary archive and scratch directory are
removed on success and on failure, and every failure surfaces as one
single error kind. -/
def claimC10asStated : Prop :=
  (∀ (faults : DownloadFaults) (fs : FsState),
    (download faults fs).2.hasZip = false ∧ (download faults fs).2.hasTemp = false) ∧
  (∀ (f1 f2 : DownloadFaults) (s1 s2 : FsState) (e1 e2 : DownloadErr),
    (download f1 s1).1 = .error e1 → (download f2 s2).1 = .error e2 → e1 = e2)

/-- A manifest whose single config file entry has an environment mapping
without `value_format`; everything else is well-formed. -/
def envBadImage : Json :=
  .obj [("meta", .obj [("api_version", .num 2)]),
        ("uid", .str "abc"),
        ("name", .str "Vanilla"),
        ("author", .str "someone"),
        ("docker_image", .str "debian"),
        ("command", .str "run"),
        ("user", .str "container"),
        ("stop_command", .str "stop"),
        ("default_image", .bool true),
        ("variables", .arr []),
        ("installation", .obj [("docker_image", .str "debian"),
                               ("shell", .str "bash"),
                               ("script", .arr [])]),
        ("config", .obj [("files", .arr [
          .obj [("filename", .str "server.properties"),
                ("parser", .str "properties"),
                ("environment", .arr [
                  .obj [("config_variable", .str "a"),
                        ("environment_variable", .str "b")]]),
                ("action", .str "restart")]])])]

theorem checkPathKeys_ok {base : Option Json} {file : String} :
    ∀ {keys : List String}, checkPathKeys base file keys = .ok () →
      ∀ k ∈ keys, (base.bind (fun j => j.getKey k)).isSome := by
  intro keys
  induction keys with
  | nil => intro _ k hk; exact absurd hk (List.not_mem_nil k)
  | cons key rest ih =>
    intro h k hk
    rw [checkPathKeys] at h
    cases hb : base.bind (fun j => j.getKey key) with
    | none => rw [hb] at h; exact Except.noConfusion h
    | some v =>
      rw [hb] at h
      rcases List.mem_cons.mp hk with rfl | hmem
      · rw [hb]; rfl
      · exact ih h k hmem

theorem checkUidLowercase_ok {image : Json} {file : String}
    (h : checkUidLowercase image file = .ok ()) :
    ∃ s, image.getKey "uid" = some (.str s) ∧ pyLower s = s := by
  unfold checkUidLowercase at h
  cases hu : image.getKey "uid" with
  | none => rw [hu] at h; exact Except.noConfusion h
  | some v =>
    rw [hu] at h
    cases v with
    | str s =>
      refine ⟨s, rfl, ?_⟩
      by_cases hs : s = pyLower s
      · exact hs.symm
      · simp [hs] at h
    | null => exact Except.noConfusion h
    | bool b => exact Except.noConfusion h
    | num n => exact Except.noConfusion h
    | arr xs => exact Except.noConfusion h
    | obj fields => exact Except.noConfusion h

theorem verifyImage_ok_parts {image : Json} {file : String}
    (h : verifyImage image file = .ok ()) :
    checkPathKeys (some image) file topLevelKeys = .ok () ∧
    checkUidLowercase image file = .ok () := by
  unfold verifyImage at h
  cases h1 : checkPathKeys (some image) file topLevelKeys with
  | error e => rw [h1] at h; exact Except.noConfusion h
  | ok u =>
    cases u
    rw [h1] at h
    cases h2 : checkUidLowercase image file with
    | error e => rw [h2] at h; exact Except.noConfusion h
    | ok v => exact ⟨rfl, rfl⟩

theorem processFile_ok_some {f : SrcFile} {image : Json}
    (h : processFile f = .ok (some image)) :
    versionOf image = some (.num API_VERSION) ∧ verifyImage image f.name = .ok () := by
  unfold processFile at h
  by_cases hj : pyEndsWith f.name ".json" = true
  · rw [if_pos hj] at h
    cases hc : f.content with
    | error msg => simp only [hc] at h; exact Except.noConfusion h
    | ok img =>
      simp only [hc] at h
      cases hv : versionOf img with
      | none => simp only [hv] at h; exact Except.noConfusion h
      | some v =>
        simp only [hv] at h
        cases v with
        | num n =>
          by_cases hn : n = API_VERSION
          · subst hn
            simp only [ne_eq, not_true_eq_false, if_false] at h
            cases h2 : verifyImage img f.name with
            | error e => simp only [h2] at h; exact Except.noConfusion h
            | ok u =>
              simp only [h2] at h
              have himg : img = image := by
                simpa only [Except.ok.injEq, Option.some.injEq] using h
              subst himg
              exact ⟨hv, h2⟩
          · simp only [ne_eq, hn, not_false_eq_true, if_true] at h
            exact Except.noConfusion h
        | null => exact Except.noConfusion h
        | bool b => exact Except.noConfusion h
        | str s => exact Except.noConfusion h
        | arr xs => exact Except.noConfusion h
        | obj fields => exact Except.noConfusion h
  · rw [if_neg hj] at h
    simp only [Except.ok.injEq] at h
    exact Option.noConfusion h

theorem processFile_ok_none_not_json {f : SrcFile}
    (h : processFile f = .ok none) : pyEndsWith f.name ".json" = false := by
  by_cases hj : pyEndsWith f.name ".json" = true
  · exfalso
    unfold processFile at h
    rw [if_pos hj] at h
    cases hc : f.content with
    | error msg => simp only [hc] at h; exact Except.noConfusion h
    | ok img =>
      simp only [hc] at h
      cases hv : versionOf img with
      | none => simp only [hv] at h; exact Except.noConfusion h
      | some v =>
        simp only [hv] at h
        cases v with
        | num n =>
          by_cases hn : n = API_VERSION
          · subst hn
            simp only [ne_eq, not_true_eq_false, if_false] at h
            cases h2 : verifyImage img f.name with
            | error e => simp only [h2] at h; exact Except.noConfusion h
            | ok u =>
              simp only [h2, Except.ok.injEq] at h
              exact Option.noConfusion h
          · simp only [ne_eq, hn, not_false_eq_true, if_true] at h
            exact Except.noConfusion h
        | null => exact Except.noConfusion h
        | bool b => exact Except.noConfusion h
        | str s => exact Except.noConfusion h
        | arr xs => exact Except.noConfusion h
        | obj fields => exact Except.noConfusion h
  · exact Bool.not_eq_true _ |>.mp hj

theorem processFile_ok_some_json {f : SrcFile} {image : Json}
    (h : processFile f = .ok (some image)) : pyEndsWith f.name ".json" = true := by
  by_cases hj : pyEndsWith f.name ".json" = true
  · exact hj
  · exfalso
    unfold processFile at h
    rw [if_neg hj] at h
    simp only [Except.ok.injEq] at h
    exact Option.noConfusion h

theorem processFiles_ok_mem :
    ∀ {files : List SrcFile} {acc res : List Json} {u : Unit},
      processFiles files acc = (.ok u, res) →
      ∀ j ∈ res, j ∈ acc ∨ ∃ f ∈ files, processFile f = .ok (some j) := by
  intro files
  induction files with
  | nil =>
    intro acc res u h j hj
    simp only [processFiles] at h
    have h2 : acc = res := congrArg Prod.snd h
    exact Or.inl (h2 ▸ hj)
  | cons f rest ih =>
    intro acc res u h j hj
    rw [processFiles] at h
    cases hf : processFile f with
    | error e =>
      simp only [hf] at h
      exact Except.noConfusion (congrArg Prod.fst h)
    | ok o =>
      cases o with
      | none =>
        simp only [hf] at h
        rcases ih h j hj with hacc | ⟨g, hg, hpg⟩
        · exact Or.inl hacc
        · exact Or.inr ⟨g, List.mem_cons_of_mem f hg, hpg⟩
      | some image =>
        simp only [hf] at h
        rcases ih h j hj with hacc | ⟨g, hg, hpg⟩
        · rcases List.mem_append.mp hacc with h1 | h2
          · exact Or.inl h1
          · have hje : j = image := List.mem_singleton.mp h2
            exact Or.inr ⟨f, List.mem_cons_self f rest, hje ▸ hf⟩
        · exact Or.inr ⟨g, List.mem_cons_of_mem f hg, hpg⟩

theorem processFiles_ok_length :
    ∀ {files : List SrcFile} {acc res : List Json} {u : Unit},
      processFiles files acc = (.ok u, res) →
      res.length = acc.length + (files.filter (fun f => pyEndsWith f.name ".json")).length := by
  intro files
  induction files with
  | nil =>
    intro acc res u h
    have h2 : acc = res := congrArg Prod.snd h
    simp [← h2]
  | cons f rest ih =>
    intro acc res u h
    rw [processFiles] at h
    cases hf : processFile f with
    | error e =>
      simp only [hf] at h
      exact Except.noConfusion (congrArg Prod.fst h)
    | ok o =>
      cases o with
      | none =>
        simp only [hf] at h
        have hnj := processFile_ok_none_not_json hf
        rw [List.filter_cons_of_neg (by simp [hnj])]
        exact ih h
      | some image =>
        simp only [hf] at h
        have hnj := processFile_ok_some_json hf
        rw [List.filter_cons_of_pos (by simp [hnj])]
        have := ih h
        simp only [List.length_append, List.length_singleton] at this
        rw [this]
        simp only [List.length_cons]
        omega

theorem processFiles_error_split :
    ∀ {files : List SrcFile} {acc res : List Json} {e : LoadErr},
      processFiles files acc = (.error e, res) →
      ∃ pre suf, files = pre ++ suf ∧ processFiles pre acc = (.ok (), res) := by
  intro files
  induction files with
  | nil =>
    intro acc res e h
    exact Except.noConfusion (congrArg Prod.fst h)
  | cons f rest ih =>
    intro acc res e h
    rw [processFiles] at h
    cases hf : processFile f with
    | error e2 =>
      simp only [hf] at h
      have hres : acc = res := congrArg Prod.snd h
      refine ⟨[], f :: rest, rfl, ?_⟩
      simp only [processFiles]
      rw [hres]
    | ok o =>
      cases o with
      | none =>
        simp only [hf] at h
        obtain ⟨pre, suf, heq, hpre⟩ := ih h
        refine ⟨f :: pre, suf, by rw [heq]; rfl, ?_⟩
        rw [processFiles]
        simp only [hf]
        exact hpre
      | some image =>
        simp only [hf] at h
        obtain ⟨pre, suf, heq, hpre⟩ := ih h
        refine ⟨f :: pre, suf, by rw [heq]; rfl, ?_⟩
        rw [processFiles]
        simp only [hf]
        exact hpre

/-- Claim C1: whenever `read_images` returns normally, every manifest held in
the registry has every required top-level key, declares the supported
`meta.api_version`, and has a uid equal to its own lowercase form. -/
theorem c1_registry_invariant (present : Bool) (files : List SrcFile)
    (prior registry : List Json)
    (h : read_images present files prior = (.ok (), registry)) :
    ∀ image ∈ registry, manifestInvariant image := by
  intro image himg
  unfold read_images at h
  by_cases hp : present = true
  · rw [if_pos hp] at h
    rcases processFiles_ok_mem h image himg with habs | ⟨f, hf, hpf⟩
    · exact absurd habs (List.not_mem_nil image)
    · obtain ⟨hver, hverify⟩ := processFile_ok_some hpf
      obtain ⟨hkeys, hlower⟩ := verifyImage_ok_parts hverify
      refine ⟨?_, hver, ?_⟩
      · intro k hk
        simpa using checkPathKeys_ok hkeys k hk
      · exact checkUidLowercase_ok hlower
  · rw [if_neg hp] at h
    exact Except.noConfusion (congrArg Prod.fst h)

/-- Witness for C1: the invariant extracted from a concrete successful load
of one valid manifest. -/
theorem c1_witness : manifestInvariant (goodImage "abc") :=
  c1_registry_invariant true [⟨"a.json", .ok (goodImage "abc")⟩] [] [goodImage "abc"]
    rfl (goodImage "abc") (List.mem_singleton.mpr rfl)

/-- Counterexample for C4: a batch of a valid manifest followed by one
missing `author` fails its load, yet the valid manifest stays registered. -/
theorem c4_counterexample : claimC4asStated = False :=
  eq_false (fun hclaim =>
    List.noConfusion
      (hclaim [⟨"a.json", .ok (goodImage "abc")⟩, ⟨"b.json", .ok noAuthorImage⟩]
        (.parseErr "b.json" "author") [goodImage "abc"] rfl))

/-- Claim C4 amended: a failed load (with the `default` subtree present) is
not atomic; it leaves the registry holding exactly the manifests of the
longest prefix of the batch that loads cleanly. -/
theorem c4_failed_load_registers_valid_prefix (files : List SrcFile)
    (e : LoadErr) (registry : List Json)
    (h : read_images true files [] = (.error e, registry)) :
    ∃ pre suf, files = pre ++ suf ∧ read_images true pre [] = (.ok (), registry) := by
  unfold read_images at h
  rw [if_pos rfl] at h
  obtain ⟨pre, suf, heq, hpre⟩ := processFiles_error_split h
  refine ⟨pre, suf, heq, ?_⟩
  unfold read_images
  rw [if_pos rfl]
  exact hpre

/-- Witness for the amended C4 at the concrete two-file batch. -/
theorem c4_witness :
    ∃ pre suf,
      [(⟨"a.json", .ok (goodImage "abc")⟩ : SrcFile), ⟨"b.json", .ok noAuthorImage⟩]
        = pre ++ suf ∧
      read_images true pre [] = (.ok (), [goodImage "abc"]) :=
  c4_failed_load_registers_valid_prefix _ (.parseErr "b.json" "author") [goodImage "abc"] rfl

/-- Counterexample for C7: two files carrying the same uid load successfully
and are both registered. -/
theorem c7_counterexample : claimC7asStated = False :=
  eq_false (fun hclaim => by
    have hp := hclaim
      [⟨"a.json", .ok (goodImage "abc")⟩, ⟨"b.json", .ok (goodImage "abc")⟩]
      [goodImage "abc", goodImage "abc"] rfl
    cases hp with
    | cons hrel _ => exact hrel (goodImage "abc") (List.mem_singleton.mpr rfl) rfl)

/-- Claim C7 amended: no uid uniqueness check exists; a successful load
registers one manifest per discovered `.json` file, duplicates included. -/
theorem c7_load_registers_every_json_file (files : List SrcFile) (registry : List Json)
    (h : read_images true files [] = (.ok (), registry)) :
    registry.length = (files.filter (fun f => pyEndsWith f.name ".json")).length := by
  unfold read_images at h
  rw [if_pos rfl] at h
  simpa using processFiles_ok_length h

/-- Witness for the amended C7 at the concrete duplicate-uid batch. -/
theorem c7_witness :
    ([goodImage "abc", goodImage "abc"] : List Json).length =
      ([(⟨"a.json", .ok (goodImage "abc")⟩ : SrcFile),
        ⟨"b.json", .ok (goodImage "abc")⟩].filter (fun f => pyEndsWith f.name ".json")).length :=
  c7_load_registers_every_json_file _ _ rfl

theorem findImage_cons_found {a : Json} {l : List Json} {x : String}
    (h : a.getKey "uid" = some (.str x)) :
    findImage x (a :: l) = .ok (some a) := by
  rw [findImage, h]
  simp

theorem findImage_cons_skip {a : Json} {l : List Json} {x : String} {v : Json}
    (h : a.getKey "uid" = some v) (hv : v ≠ .str x) :
    findImage x (a :: l) = findImage x l := by
  rw [findImage, h]
  cases v with
  | str s =>
    have hs : ¬ s = x := fun hh => hv (by rw [hh])
    simp [hs]
  | null => rfl
  | bool b => rfl
  | num n => rfl
  | arr xs => rfl
  | obj fields => rfl

theorem findImage_match {x : String} :
    ∀ {images : List Json},
      (∀ m ∈ images, (m.getKey "uid").isSome) →
      (∃ m ∈ images, m.getKey "uid" = some (.str x)) →
      ∃ m, findImage x images = .ok (some m) ∧ m.getKey "uid" = some (.str x) := by
  intro images
  induction images with
  | nil => intro _ hex; simp at hex
  | cons a l ih =>
    intro hall hex
    by_cases ha : a.getKey "uid" = some (.str x)
    · exact ⟨a, findImage_cons_found ha, ha⟩
    · have hsome := hall a (List.mem_cons_self a l)
      obtain ⟨v, hv⟩ := Option.isSome_iff_exists.mp hsome
      have hvne : v ≠ .str x := fun hh => ha (hh ▸ hv)
      rw [findImage_cons_skip hv hvne]
      apply ih (fun m hm => hall m (List.mem_cons_of_mem a hm))
      rcases hex with ⟨m, hm, hmx⟩
      rcases List.mem_cons.mp hm with rfl | hml
      · exact absurd hmx ha
      · exact ⟨m, hml, hmx⟩

theorem findImage_nomatch {x : String} :
    ∀ {images : List Json},
      (∀ m ∈ images, (m.getKey "uid").isSome) →
      (∀ m ∈ images, m.getKey "uid" ≠ some (.str x)) →
      findImage x images = .ok none := by
  intro images
  induction images with
  | nil => intro _ _; rfl
  | cons a l ih =>
    intro hall hno
    have hsome := hall a (List.mem_cons_self a l)
    obtain ⟨v, hv⟩ := Option.isSome_iff_exists.mp hsome
    have hvne : v ≠ .str x := fun hh =>
      hno a (List.mem_cons_self a l) (hh ▸ hv)
    rw [findImage_cons_skip hv hvne]
    exact ih (fun m hm => hall m (List.mem_cons_of_mem a hm))
      (fun m hm => hno m (List.mem_cons_of_mem a hm))

/-- Claim C3: for every registry a successful load produced, once it is
queryable (the load registered at least one manifest; a query on the empty
registry instead raises the separately specified `ImagesNotRead`, settled
under C8), and for every uid string, loaded or not: when the registry holds
a manifest whose uid equals the string exactly, `get_image` returns the
first such manifest, and otherwise it returns the absent result — not an
error.  The uid key's presence in every registered manifest is derived from
the load, not assumed. -/
theorem c3_lookup_exact_match (present : Bool) (files : List SrcFile)
    (prior registry : List Json) (x : String)
    (hload : read_images present files prior = (.ok (), registry))
    (hne : registry ≠ []) :
    ((∃ m ∈ registry, m.getKey "uid" = some (.str x)) →
      ∃ m, get_image registry x = .ok (some m) ∧ m.getKey "uid" = some (.str x)) ∧
    ((¬ ∃ m ∈ registry, m.getKey "uid" = some (.str x)) →
      get_image registry x = .ok none) := by
  have hp : processFiles files [] = (.ok (), registry) := by
    unfold read_images at hload
    by_cases hpres : present = true
    · rwa [if_pos hpres] at hload
    · rw [if_neg hpres] at hload
      exact absurd (congrArg Prod.fst hload) (fun hh => Except.noConfusion hh)
  have huid : ∀ m ∈ registry, (m.getKey "uid").isSome := by
    intro m hm
    rcases processFiles_ok_mem hp m hm with habs | ⟨f, hf, hpf⟩
    · exact absurd habs (List.not_mem_nil m)
    · obtain ⟨-, hverify⟩ := processFile_ok_some hpf
      obtain ⟨-, hlower⟩ := verifyImage_ok_parts hverify
      obtain ⟨s, hs, -⟩ := checkUidLowercase_ok hlower
      rw [hs]
      rfl
  have hlen : ¬ registry.length = 0 := by
    simpa [List.length_eq_zero] using hne
  constructor
  · intro hex
    obtain ⟨m, hm1, hm2⟩ := findImage_match huid hex
    refine ⟨m, ?_, hm2⟩
    unfold get_image
    rw [if_neg hlen]
    exact hm1
  · intro hno
    unfold get_image
    rw [if_neg hlen]
    apply findImage_nomatch huid
    intro m hm hcontra
    exact hno ⟨m, hm, hcontra⟩

/-- Witness for C3 on a concrete loaded one-manifest registry: the loaded
uid is found with the matching manifest returned, and a never-loaded uid
gives the absent result, not an error. -/
theorem c3_witness :
    (∃ m, get_image [goodImage "abc"] "abc" = .ok (some m) ∧
      m.getKey "uid" = some (.str "abc")) ∧
    get_image [goodImage "abc"] "zzz" = .ok none :=
  ⟨(c3_lookup_exact_match true [⟨"a.json", .ok (goodImage "abc")⟩] [] [goodImage "abc"]
      "abc" rfl (by simp)).1 ⟨goodImage "abc", List.mem_singleton.mpr rfl, rfl⟩,
   (c3_lookup_exact_match true [⟨"a.json", .ok (goodImage "abc")⟩] [] [goodImage "abc"]
      "zzz" rfl (by simp)).2 (fun hcon => by
        obtain ⟨m, hm, hx⟩ := hcon
        rw [List.mem_singleton.mp hm] at hx
        have hx2 : (some (Json.str "abc") : Option Json) = some (.str "zzz") := hx
        have hx3 := Json.str.inj (Option.some.inj hx2)
        exact absurd hx3 (by decide))⟩

theorem findImage_ne_notRead {x : String} :
    ∀ {images : List Json}, findImage x images ≠ .error .notRead := by
  intro images
  induction images with
  | nil => exact fun h => Except.noConfusion h
  | cons a l ih =>
    intro h
    cases hu : a.getKey "uid" with
    | none =>
      rw [findImage, hu] at h
      exact QueryErr.noConfusion (Except.error.inj h)
    | some v =>
      by_cases hv : v = .str x
      · subst hv
        rw [findImage_cons_found hu] at h
        exact Except.noConfusion h
      · rw [findImage_cons_skip hu hv] at h
        exact ih h

/-- Counterexample for C8: a successful load that registered zero manifests
has completed, yet the next query still raises `ImagesNotRead`. -/
theorem c8_counterexample : claimC8asStated = False :=
  eq_false (fun hclaim => by
    have h := (hclaim [(true, [])] "a").mp rfl
    exact h ⟨(true, []), List.mem_singleton.mpr rfl, ⟨(), rfl⟩⟩)

/-- Claim C8 amended: `get_image` and `pretty` raise `ImagesNotRead` exactly
when the registry list is empty — not exactly when no successful load has
completed. -/
theorem c8_notread_iff_registry_empty (images : List Json) (x : String) :
    (get_image images x = .error .notRead ↔ images = []) ∧
    ((api_pretty images).1 = .error .notRead ↔ images = []) := by
  constructor
  · constructor
    · intro h
      by_cases hlen : images.length = 0
      · exact List.length_eq_zero.mp hlen
      · unfold get_image at h
        rw [if_neg hlen] at h
        exact absurd h findImage_ne_notRead
    · intro h
      subst h
      rfl
  · constructor
    · intro h
      by_cases hlen : images.length = 0
      · exact List.length_eq_zero.mp hlen
      · unfold api_pretty at h
        rw [if_neg hlen] at h
        exact Except.noConfusion h
    · intro h
      subst h
      rfl

/-- Witness for the amended C8 on the empty and a nonempty registry. -/
theorem c8_witness :
    get_image ([] : List Json) "a" = .error .notRead ∧
    get_image [goodImage "abc"] "a" ≠ .error .notRead := by
  constructor
  · exact (c8_notread_iff_registry_empty [] "a").1.mpr rfl
  · intro h
    exact List.noConfusion ((c8_notread_iff_registry_empty [goodImage "abc"] "a").1.mp h)

/-- Claim C2: in the legacy loading pipeline, a first read pass that signals
a version problem triggers exactly one `download_default` refetch; if the
second pass still signals it, the outcome is the fatal
incorrect-API-version-after-refresh error; and no run of the block ever
makes more than one refetch. -/
theorem c2_one_refetch_policy (fs0 fs1 : List SrcFile) :
    (legacyInit fs0 fs1).2 ≤ 1 ∧
    (legacyRead fs0 [] = .refreshSignal →
      (legacyInit fs0 fs1).2 = 1 ∧
      (legacyRead fs1 [] = .refreshSignal →
        (legacyInit fs0 fs1).1 = .fatalMismatchAfterRefresh)) := by
  unfold legacyInit
  cases h0 : legacyRead fs0 [] with
  | ok imgs => simp
  | fatal msg => simp
  | refreshSignal =>
    cases h1 : legacyRead fs1 [] with
    | ok imgs => simp
    | fatal msg => simp
    | refreshSignal => simp

/-- Witness for C2: a manifest batch whose version (2) differs from the
legacy supported version (0) both before and after the refetch. -/
theorem c2_witness :
    (legacyInit [⟨"mc.json", .ok (goodImage "abc")⟩]
        [⟨"mc.json", .ok (goodImage "abc")⟩]).2 = 1 ∧
    (legacyInit [⟨"mc.json", .ok (goodImage "abc")⟩]
        [⟨"mc.json", .ok (goodImage "abc")⟩]).1 = .fatalMismatchAfterRefresh := by
  have h := (c2_one_refetch_policy [⟨"mc.json", .ok (goodImage "abc")⟩]
    [⟨"mc.json", .ok (goodImage "abc")⟩]).2 rfl
  exact ⟨h.1, h.2 rfl⟩

theorem lookupKey_filter_not_mem {keys : List String} {k : String} (hk : k ∈ keys) :
    ∀ fields : List (String × Json),
      Json.lookupKey (fields.filter (fun kv => decide (kv.1 ∉ keys))) k = none := by
  intro fields
  induction fields with
  | nil => rfl
  | cons kv rest ih =>
    obtain ⟨k1, v1⟩ := kv
    by_cases hkv : k1 ∈ keys
    · rw [List.filter_cons_of_neg (by simpa using hkv)]
      exact ih
    · rw [List.filter_cons_of_pos (by simpa using hkv)]
      rw [Json.lookupKey]
      have hne : ¬ k1 = k := fun hh => hkv (hh ▸ hk)
      rw [if_neg hne]
      exact ih

theorem getKey_delKeys_of_mem {keys : List String} {k : String} (hk : k ∈ keys) :
    ∀ j : Json, (delKeys keys j).getKey k = none := by
  intro j
  cases j with
  | obj fields => exact lookupKey_filter_not_mem hk fields
  | null => rfl
  | bool b => rfl
  | num n => rfl
  | str s => rfl
  | arr xs => rfl

/-- Counterexample for C9: the legacy `pretty` on a one-manifest registry
strips the stored manifest's non-display keys in place, so the registry
state afterwards differs from the one before. -/
theorem c9_counterexample : claimC9asStated = False :=
  eq_false (fun hclaim => by
    have h := (hclaim [goodImage "abc"]).2
    have h2 := congrArg
      (fun l : List Json => l.head?.map (fun j => (j.getKey "meta").isSome)) h
    have h3 : (some false : Option Bool) = some true := h2
    exact Bool.noConfusion (Option.some.inj h3))

/-- Claim C9 amended: the api variant's queries leave the registry unchanged
(`pretty` deep-copies before deleting keys), but the legacy `pretty`
replaces every stored manifest by its key-stripped form, in particular
destroying the required `meta` key. -/
theorem c9_pretty_registry_effects (images : List Json) :
    (api_pretty images).2 = images ∧
    (legacy_pretty images).2 = images.map (delKeys legacyPrettyDropKeys) ∧
    ∀ m ∈ (legacy_pretty images).2, m.getKey "meta" = none := by
  refine ⟨?_, rfl, ?_⟩
  · unfold api_pretty
    split <;> rfl
  · intro m hm
    simp only [legacy_pretty, List.mem_map] at hm
    obtain ⟨j, hj, rfl⟩ := hm
    exact getKey_delKeys_of_mem (by simp [legacyPrettyDropKeys]) j

/-- Witness for the amended C9 on a concrete one-manifest registry. -/
theorem c9_witness :
    (api_pretty [goodImage "abc"]).2 = [goodImage "abc"] ∧
    (legacy_pretty [goodImage "abc"]).2
      = [goodImage "abc"].map (delKeys legacyPrettyDropKeys) ∧
    ∀ m ∈ (legacy_pretty [goodImage "abc"]).2, m.getKey "meta" = none :=
  c9_pretty_registry_effects [goodImage "abc"]

/-- Counterexample for C10: when the network read raises, `download` leaves
the just-created temporary archive behind — nothing cleans it up on
failure. -/
theorem c10_counterexample : claimC10asStated = False :=
  eq_false (fun hclaim => by
    have h := (hclaim.1 ⟨true, false, false⟩ ⟨false, false, false⟩).1
    have h2 : (true : Bool) = false := h
    exact Bool.noConfusion h2)

/-- Claim C10 amended: `download` removes the `default` subtree first and
cleans the archive and scratch directory up only on success; a failure
surfaces the raw underlying exception kind (network and archive failures
are distinguishable, there is no single FetchError), leaves the temporary
archive behind, and leaves no `default` subtree at all. -/
theorem c10_download_effects (fs : FsState) :
    download ⟨false, false, false⟩ fs = (.ok (), ⟨true, false, false⟩) ∧
    (download ⟨true, false, false⟩ fs).1 = .error .connectionError ∧
    (download ⟨true, false, false⟩ fs).2.hasZip = true ∧
    (download ⟨false, true, false⟩ fs).1 = .error .badZipFile ∧
    (∀ (faults : DownloadFaults) (e : DownloadErr),
      (download faults fs).1 = .error e → (download faults fs).2.hasDefault = false) := by
  refine ⟨rfl, rfl, rfl, rfl, ?_⟩
  intro faults e h
  obtain ⟨nf, zf, mf⟩ := faults
  cases nf <;> cases zf <;> cases mf <;> simp_all [download]

/-- Witness for the amended C10 at the all-steps-succeed and network-failure
fault patterns on the empty filesystem state. -/
theorem c10_witness :
    download ⟨false, false, false⟩ ⟨false, false, false⟩
      = (.ok (), ⟨true, false, false⟩) ∧
    (download ⟨true, false, false⟩ ⟨false, false, false⟩).2.hasZip = true :=
  ⟨(c10_download_effects ⟨false, false, false⟩).1,
   (c10_download_effects ⟨false, false, false⟩).2.2.1⟩

/-- Claim C5 (code bug shown at a concrete input): when `config` lacks the
`files` key, `_verify` raises `ParseError` naming the leaked installation
loop key `script` instead of the actually missing key; on the other check
classes the first missing key and, for environment entries, the owning
filename are reported as the claim states. -/
theorem c5_missing_files_reports_script :
    ((emptyConfigImage.getKey "config").bind (fun c => c.getKey "files") = none) ∧
    verifyImage emptyConfigImage "c5.json" = .error (.parseErr "c5.json" "script") ∧
    verifyImage noAuthorImage "b.json" = .error (.parseErr "b.json" "author") ∧
    verifyImage envBadImage "e.json"
      = .error (.parseErr "e.json" "server.properties environment key value_format") :=
  ⟨rfl, rfl, rfl, rfl⟩

/-- Counterexample for C6: a record that both misses `author` and declares
version 1 is rejected by the version gate, not by the validator. -/
theorem c6_counterexample : claimC6asStated = False :=
  eq_false (fun hclaim => by
    have h := hclaim "c.json" mixedBadImage (.apiMismatch "c.json" (.num 1)) [] rfl
      ⟨"author", by simp [topLevelKeys], rfl⟩
      (fun v hv => by
        have hv2 : (some (Json.num 1) : Option Json) = some v := hv
        have hv3 := Option.some.inj hv2
        subst hv3
        intro hh
        injection hh with h12
        exact absurd h12 (by decide))
      rfl
    rcases h with ⟨file, key, hh⟩ | ⟨file, hh⟩
    · exact LoadErr.noConfusion hh
    · exact LoadErr.noConfusion hh)

/-- Claim C6 amended: the version gate runs before structural validation,
so any single-file load whose record declares a readable but unsupported
`meta.api_version` fails with `ImageAPIMismatch` — whatever keys the record
is missing. -/
theorem c6_version_gate_runs_first (name : String) (image : Json) (v : Json)
    (hn : pyEndsWith name ".json" = true)
    (hv : versionOf image = some v) (hm : v ≠ .num API_VERSION) :
    (read_images true [⟨name, .ok image⟩] []).1 = .error (.apiMismatch name v) := by
  have hp : processFile ⟨name, .ok image⟩ = .error (.apiMismatch name v) := by
    unfold processFile
    cases v with
    | num n =>
      have hne : ¬ n = API_VERSION := fun hh => hm (by rw [hh])
      simp [hn, hv, hne]
    | null => simp [hn, hv]
    | bool b => simp [hn, hv]
    | str s => simp [hn, hv]
    | arr xs => simp [hn, hv]
    | obj fields => simp [hn, hv]
  unfold read_images
  rw [if_pos rfl, processFiles, hp]

/-- Witness for the amended C6 at the concrete mixed-failure manifest. -/
theorem c6_witness :
    (read_images true [⟨"c.json", .ok mixedBadImage⟩] []).1
      = .error (.apiMismatch "c.json" (.num 1)) :=
  c6_version_gate_runs_first "c.json" mixedBadImage (.num 1) rfl rfl
    (by
      intro hh
      injection hh with h12
      exact absurd h12 (by decide))
